import Mathlib

/-!
Verification development for the FewTags yoinker-detector lookup client
(`yoinker_detector_v2.py`).  The Python source is shallowly embedded:
timestamps are integers (seconds), the in-memory cache dictionary is an
association list, files are explicit values, and the network is an oracle
list of responses consumed one per attempt.  Side effects are recorded as
an explicit event trace.
-/

set_option autoImplicit false

namespace YD

abbrev UserId := String

/-- Decoded JSON body of a positive lookup, as used by the script
(`data.get('isYoinker', False)` plus the reported fields). -/
structure YoinkerData where
  isYoinker : Bool
  userName : String
  year : String
  reason : String
deriving DecidableEq, Repr

/-- Embedding of `RateLimiter` (timestamps in integer seconds, newest at the
end of the list, exactly as `self.requests` is appended to). -/
structure RateLimiter where
  maxRequests : Nat := 15
  timeFrameSeconds : Int := 60
  requests : List Int := []
deriving DecidableEq, Repr

/-- `RateLimiter.request_made`: append the current timestamp; if the list has
grown past `max_requests + 25` entries, drop the oldest one (`pop(0)`). -/
def RateLimiter.request_made (rl : RateLimiter) (now : Int) : RateLimiter :=
  let reqs := rl.requests ++ [now]
  { rl with requests := if reqs.length > rl.maxRequests + 25 then reqs.tail else reqs }

/-- `RateLimiter.is_rate_limit_exceeded`: keep the timestamps strictly newer
than `now - time_frame_seconds` and compare the count with `max_requests`. -/
def RateLimiter.is_rate_limit_exceeded (rl : RateLimiter) (now : Int) : Bool :=
  let cutoff := now - rl.timeFrameSeconds
  let recent := rl.requests.filter (fun req => req > cutoff)
  recent.length ≥ rl.maxRequests

/-- The in-memory cache `self.cache : Dict[str, (datetime, Optional[Dict])]`,
embedded as an association list keyed by user id. -/
abbrev Cache := List (UserId × Int × Option YoinkerData)

/-- Dictionary lookup `self.cache[user_id]`. -/
def cacheLookup (c : Cache) (id : UserId) : Option (Int × Option YoinkerData) :=
  (c.find? (fun e => e.1 = id)).map (fun e => e.2)

/-- Dictionary insert/overwrite `self.cache[user_id] = v`. -/
def cacheInsert (c : Cache) (id : UserId) (v : Int × Option YoinkerData) : Cache :=
  if c.any (fun e => e.1 = id) then
    c.map (fun e => if e.1 = id then (id, v) else e)
  else
    c ++ [(id, v)]

/-- Dictionary delete `del self.cache[user_id]`. -/
def cacheErase (c : Cache) (id : UserId) : Cache :=
  c.filter (fun e => ¬ e.1 = id)

/-- The cache TTL: 30 minutes, in seconds. -/
def cacheTTL : Int := 30 * 60

/-- Embedding of `YoinkerDetector._check_cache`: a fresh entry is returned
as-is (its stored value may itself be `none`); an expired entry is deleted;
after falling through, the whole table is cleared when its size exceeds 512;
the fall-through result is `None`. -/
def checkCache (c : Cache) (id : UserId) (now : Int) : Option YoinkerData × Cache :=
  match cacheLookup c id with
  | some (cachedTime, result) =>
      if now - cachedTime < cacheTTL then
        (result, c)
      else
        let c1 := cacheErase c id
        (none, if c1.length > 512 then [] else c1)
  | none =>
      (none, if c.length > 512 then [] else c)

/-- Embedding of `YoinkerDetector._add_to_cache`: insert/overwrite with the
current timestamp.  Note that this function performs no size check. -/
def addToCache (c : Cache) (id : UserId) (result : Option YoinkerData) (now : Int) : Cache :=
  cacheInsert c id (now, result)

/-- State of a file on disk: absent, present but unreadable (an I/O error is
caught and logged by the script), or present with content. -/
inductive FileState (α : Type) where
  | absent
  | unreadable
  | content (value : α)
deriving DecidableEq, Repr

/-- Python's `str.strip()`: drop leading and trailing whitespace. -/
def pyStrip (s : String) : String :=
  String.mk (((s.data.dropWhile Char.isWhitespace).reverse.dropWhile
    Char.isWhitespace).reverse)

/-- Embedding of `YoinkerDetector._load_404_ids`: a missing or unreadable
`404.txt` yields the empty set; otherwise the stripped, non-empty lines. -/
def load404 (fs : FileState (List String)) : List String :=
  match fs with
  | .absent => []
  | .unreadable => []
  | .content lines => ((lines.map pyStrip).filter (fun s => s ≠ "")).dedup

/-- Embedding of `YoinkerDetector._save_to_404_file`: append one line; a
write failure is caught and logged, leaving the file unchanged. -/
def saveTo404 (fs : FileState (List String)) (id : UserId) : FileState (List String) :=
  match fs with
  | .absent => .content [id]
  | .unreadable => .unreadable
  | .content lines => .content (lines ++ [id])

/-- Outcome of one network attempt as observed by `check_user`: an HTTP 200
whose body either decodes (`ok (some d)`) or is malformed JSON (`ok none`),
an HTTP 404, an HTTP 429, any other status, a transport timeout
(`asyncio.TimeoutError`), or a connection error (`aiohttp.ClientError`). -/
inductive Response where
  | ok (decoded : Option YoinkerData)
  | notFound
  | throttled
  | otherStatus (code : Nat)
  | timeout
  | clientError
deriving DecidableEq, Repr

/-- Observable side effects of a lookup, recorded in order. -/
inductive Event where
  | rateGate (id : UserId)
  | networkRequest (id : UserId) (attempt : Nat)
  | sleep (seconds : Nat)
  | cacheStore (id : UserId) (value : Option YoinkerData)
  | ledgerAppend (id : UserId)
deriving DecidableEq, Repr

def isNetworkRequest : Event → Bool
  | .networkRequest _ _ => true
  | _ => false

def isLedgerAppend : Event → Bool
  | .ledgerAppend _ => true
  | _ => false

/-- Number of network attempts recorded in a trace. -/
def numRequests (evs : List Event) : Nat :=
  (evs.filter isNetworkRequest).length

/-- Mutable state touched by `check_user`: the in-memory cache, the
`404.txt` ledger file and the rate limiter. -/
structure DetectorState where
  cache : Cache := []
  ledgerFile : FileState (List String) := .absent
  rateLimiter : RateLimiter := {}
deriving DecidableEq, Repr

/-- Embedding of `YoinkerDetector.check_user`.

`snapshot` is the state of `<yoinkers_dir>/<id>.json`: `none` when the file
does not exist, `some none` when it exists but reading or decoding it fails
(the exception is caught and the code falls through), `some (some d)` when
it decodes to a record `d`.  `responses` is the oracle of network outcomes,
consumed one per attempt; `now` is the (fixed) current time.  The result's
first component is `none` when the fuel or the oracle ran out before the
call returned, and `some r` for the Python return value `r`
(`some (some d)` for a found record, `some none` for Python `None`). -/
def checkUser : Nat → DetectorState → UserId → Option (Option YoinkerData) →
    List Response → Int → Nat → Option (Option YoinkerData) × DetectorState × List Event
  | 0, st, _, _, _, _, _ => (none, st, [])
  | fuel + 1, st, id, snapshot, responses, now, retryCount =>
    match snapshot with
    | some (some data) =>
        if data.isYoinker then
          (some (some data), st, [])
        else
          if id ∈ load404 st.ledgerFile then
            (some none, st, [])
          else
            (some none, { st with ledgerFile := saveTo404 st.ledgerFile id },
              [.ledgerAppend id])
    | _ =>
        match checkCache st.cache id now with
        | (some cached, cache1) =>
            (some (some cached), { st with cache := cache1 }, [])
        | (none, cache1) =>
            let st1 : DetectorState := { st with cache := cache1 }
            match responses with
            | [] => (none, st1, [])
            | resp :: rest =>
              let ev : List Event := [.rateGate id, .networkRequest id retryCount]
              match resp with
              | .ok decoded =>
                  let st2 := { st1 with rateLimiter := st1.rateLimiter.request_made now }
                  match decoded with
                  | some data =>
                      if data.isYoinker then
                        (some (some data),
                          { st2 with cache := addToCache st2.cache id (some data) now },
                          ev ++ [.cacheStore id (some data)])
                      else
                        (some none,
                          { st2 with cache := addToCache st2.cache id none now },
                          ev ++ [.cacheStore id none])
                  | none =>
                      (some none, st2, ev)
              | .notFound =>
                  let st2 := { st1 with rateLimiter := st1.rateLimiter.request_made now }
                  (some none,
                    { st2 with cache := addToCache st2.cache id none now,
                               ledgerFile := saveTo404 st2.ledgerFile id },
                    ev ++ [.cacheStore id none, .ledgerAppend id])
              | .throttled =>
                  let st2 := { st1 with rateLimiter := st1.rateLimiter.request_made now }
                  let r := checkUser fuel st2 id snapshot rest now retryCount
                  (r.1, r.2.1, ev ++ [.sleep 60] ++ r.2.2)
              | .otherStatus _ =>
                  let st2 := { st1 with rateLimiter := st1.rateLimiter.request_made now }
                  let r := checkUser fuel st2 id snapshot rest now retryCount
                  (r.1, r.2.1, ev ++ [.sleep 1] ++ r.2.2)
              | .timeout =>
                  if retryCount < 3 then
                    let r := checkUser fuel st1 id snapshot rest now (retryCount + 1)
                    (r.1, r.2.1, ev ++ [.sleep 1] ++ r.2.2)
                  else
                    (some none, st1, ev)
              | .clientError =>
                  if retryCount < 3 then
                    let r := checkUser fuel st1 id snapshot rest now (retryCount + 1)
                    (r.1, r.2.1, ev ++ [.sleep 1] ++ r.2.2)
                  else
                    (some none, st1, ev)

/-- The slicing loop `for i in range(0, len(user_ids), batch_size)` with
`batch = user_ids[i:i + batch_size]`: consecutive chunks of size `n` (the
last possibly smaller).  For `n = 0` the Python `range` raises `ValueError`,
so that case is unused; it is mapped to the empty batch list here. -/
def chunkList {α : Type} : Nat → List α → List (List α)
  | _, [] => []
  | 0, _ :: _ => []
  | n + 1, x :: xs => ((x :: xs).take (n + 1)) :: chunkList (n + 1) ((x :: xs).drop (n + 1))
termination_by _ l => l.length
decreasing_by
  simp only [List.length_drop, List.length_cons]
  omega

/-- Embedding of the pure part of `YoinkerDetector.process_user_ids`: parse
the input lines, load the ledger, filter out ledgered ids, then slice the
remainder into batches of `max_concurrent * 2`.  Returns the filtered id
list together with the batch list. -/
def processUserIds (inputLines : List String) (ledgerFile : FileState (List String))
    (maxConcurrent : Nat) : List UserId × List (List UserId) :=
  let userIds := (inputLines.map pyStrip).filter (fun s => s ≠ "")
  let notFoundIds := load404 ledgerFile
  let remaining := userIds.filter (fun uid => uid ∉ notFoundIds)
  (remaining, chunkList (maxConcurrent * 2) remaining)

/-- Orchestrator-level events: creating a lookup task for an id inside a
given batch, and awaiting that task. -/
inductive BatchEvent where
  | launch (batchIndex : Nat) (id : UserId)
  | awaitTask (batchIndex : Nat) (id : UserId)
deriving DecidableEq, Repr

def BatchEvent.batchIndex : BatchEvent → Nat
  | .launch i _ => i
  | .awaitTask i _ => i

def BatchEvent.user : BatchEvent → UserId
  | .launch _ id => id
  | .awaitTask _ id => id

/-- The batch loop of `process_user_ids`, as a trace: for each batch in
order, first every task is created (`asyncio.create_task` over the batch),
then every task is awaited (`asyncio.wait_for` in creation order); only
then does the next batch begin. -/
def orchestratorTrace : Nat → List (List UserId) → List BatchEvent
  | _, [] => []
  | i, b :: bs =>
      b.map (fun id => .launch i id) ++ b.map (fun id => .awaitTask i id)
        ++ orchestratorTrace (i + 1) bs

/-! ### Cache lemmas -/

theorem cacheLookup_nil (id : UserId) : cacheLookup [] id = none := rfl

theorem cacheLookup_eq_none_of_forall (c : Cache) (id : UserId)
    (h : ∀ e ∈ c, e.1 ≠ id) : cacheLookup c id = none := by
  unfold cacheLookup
  rcases hf : c.find? (fun e => decide (e.1 = id)) with _ | e
  · rw [hf]
    rfl
  · exact absurd (by simpa using List.find?_some hf) (h e (List.mem_of_find?_eq_some hf))

theorem cacheLookup_erase_self (c : Cache) (id : UserId) :
    cacheLookup (cacheErase c id) id = none := by
  apply cacheLookup_eq_none_of_forall
  intro e he
  have h := List.mem_filter.1 he
  simpa using h.2

theorem checkCache_of_lookup_none (c : Cache) (id : UserId) (now : Int)
    (h : cacheLookup c id = none) :
    checkCache c id now = (none, if c.length > 512 then [] else c) := by
  unfold checkCache
  rw [h]

theorem cacheLookup_checkCache_none (c : Cache) (id : UserId) (now : Int)
    (h : cacheLookup c id = none) :
    cacheLookup (checkCache c id now).2 id = none := by
  rw [checkCache_of_lookup_none c id now h]
  by_cases h5 : c.length > 512
  · simp [h5, cacheLookup_nil]
  · simpa [h5] using h

theorem checkCache_fresh (c : Cache) (id : UserId) (t now : Int)
    (v : Option YoinkerData) (hl : cacheLookup c id = some (t, v))
    (hf : now - t < cacheTTL) : checkCache c id now = (v, c) := by
  unfold checkCache
  rw [hl]
  simp [hf]

theorem checkCache_expired (c : Cache) (id : UserId) (t now : Int)
    (v : Option YoinkerData) (hl : cacheLookup c id = some (t, v))
    (he : cacheTTL ≤ now - t) :
    (checkCache c id now).1 = none ∧ cacheLookup (checkCache c id now).2 id = none := by
  unfold checkCache
  rw [hl]
  have hnf : ¬ (now - t < cacheTTL) := by omega
  refine ⟨by simp [hnf], ?_⟩
  by_cases h5 : (cacheErase c id).length > 512
  · simp [hnf, h5, cacheLookup_nil]
  · simp [hnf, h5, cacheLookup_erase_self]

/-- C6: an in-memory cache entry written at time `t` is returned as a hit by
any read strictly before `t` plus 30 minutes, and a read at or after
`t` plus 30 minutes misses (the entry is deleted). -/
theorem C6_cache_ttl (c : Cache) (id : UserId) (t now : Int)
    (v : Option YoinkerData) (h : cacheLookup c id = some (t, v)) :
    (now - t < cacheTTL → checkCache c id now = (v, c)) ∧
    (cacheTTL ≤ now - t →
      (checkCache c id now).1 = none ∧ cacheLookup (checkCache c id now).2 id = none) :=
  ⟨fun hf => checkCache_fresh c id t now v h hf,
   fun he => checkCache_expired c id t now v h he⟩

/-- Witness for C6 at a concrete cache: an entry stored at time 100 hits at
time 1899 (29 min 59 s later) and misses at time 1900 (exactly 30 min). -/
theorem C6_cache_ttl_witness :
    checkCache [("u", (100 : Int), some ⟨true, "n", "2024", "r"⟩)] "u" 1899 =
      (some ⟨true, "n", "2024", "r"⟩, [("u", (100 : Int), some ⟨true, "n", "2024", "r"⟩)]) ∧
    (checkCache [("u", (100 : Int), some ⟨true, "n", "2024", "r"⟩)] "u" 1900).1 = none :=
  ⟨(C6_cache_ttl [("u", (100 : Int), some ⟨true, "n", "2024", "r"⟩)] "u" 100 1899
      (some ⟨true, "n", "2024", "r"⟩) (by decide)).1 (by decide),
   ((C6_cache_ttl [("u", (100 : Int), some ⟨true, "n", "2024", "r"⟩)] "u" 100 1900
      (some ⟨true, "n", "2024", "r"⟩) (by decide)).2 (by decide)).1⟩

/-! ### Insert lemmas and the size-513 scenario -/

theorem cacheLookup_cacheInsert_self (c : Cache) (id : UserId)
    (v : Int × Option YoinkerData) : cacheLookup (cacheInsert c id v) id = some v := by
  unfold cacheInsert
  by_cases hany : c.any (fun e => decide (e.1 = id)) = true
  · rw [if_pos hany]
    unfold cacheLookup
    induction c with
    | nil => simp at hany
    | cons e rest ih =>
      by_cases he : e.1 = id
      · simp [he]
      · have hrest : rest.any (fun e => decide (e.1 = id)) = true := by
          simpa [he] using hany
        simpa [he] using ih hrest
  · rw [if_neg hany]
    have hnone : c.find? (fun e => decide (e.1 = id)) = none := by
      rw [List.find?_eq_none]
      intro e he
      have := List.any_eq_false.1 (Bool.not_eq_true _ ▸ hany) e he
      simpa using this
    unfold cacheLookup
    simp [List.find?_append, hnone]

theorem length_cacheInsert_ge (c : Cache) (id : UserId)
    (v : Int × Option YoinkerData) : c.length ≤ (cacheInsert c id v).length := by
  unfold cacheInsert
  split <;> simp

theorem cacheLookup_map_const (keys : List UserId) (k : UserId) (t : Int)
    (v : Option YoinkerData) (h : k ∈ keys) :
    cacheLookup (keys.map (fun k1 => (k1, t, v))) k = some (t, v) := by
  induction keys with
  | nil => simp at h
  | cons a as ih =>
    by_cases ha : a = k
    · simp [cacheLookup, ha]
    · have hk : k ∈ as := by
        rcases List.mem_cons.1 h with h1 | h1
        · exact absurd h1.symm ha
        · exact h1
      simpa [cacheLookup, ha] using ih hk

theorem foldl_addToCache_fresh (v : Option YoinkerData) (now : Int)
    (keys : List UserId) (acc : Cache) (hnd : keys.Nodup)
    (hfresh : ∀ k ∈ keys, ∀ e ∈ acc, e.1 ≠ k) :
    keys.foldl (fun c k => addToCache c k v now) acc
      = acc ++ keys.map (fun k => (k, now, v)) := by
  induction keys generalizing acc with
  | nil => simp
  | cons k ks ih =>
    rw [List.foldl_cons]
    have hstep : addToCache acc k v now = acc ++ [(k, now, v)] := by
      unfold addToCache cacheInsert
      rw [if_neg]
      intro hany
      rcases List.any_eq_true.1 hany with ⟨e, he, hek⟩
      exact hfresh k (by simp) e he (by simpa using hek)
    have hfresh1 : ∀ k1 ∈ ks, ∀ e ∈ acc ++ [(k, now, v)], e.1 ≠ k1 := by
      intro k1 hk1 e he
      rcases List.mem_append.1 he with h1 | h1
      · exact hfresh k1 (by simp [hk1]) e h1
      · have he2 : e = (k, now, v) := by simpa using h1
        subst he2
        intro hek
        have hkk : k = k1 := hek
        exact (List.nodup_cons.1 hnd).1 (hkk ▸ hk1)
    rw [hstep, ih (acc ++ [(k, now, v)]) hnd.of_cons hfresh1]
    simp

/-- Key generator for the size-513 scenario: pairwise distinct ids. -/
def mkKey (i : Nat) : UserId := String.mk (List.replicate i 'a')

theorem mkKey_injective : Function.Injective mkKey := by
  intro i j h
  have hd := congrArg String.data h
  simp only [mkKey] at hd
  have := congrArg List.length hd
  simpa using this

def dummyData : YoinkerData := ⟨true, "u", "2024", "r"⟩

def bigKeys : List UserId := (List.range 513).map mkKey

theorem bigKeys_nodup : bigKeys.Nodup :=
  (List.nodup_range 513).map mkKey_injective

/-- 513 distinct entries inserted through `_add_to_cache` into an empty
cache. -/
def bigCache : Cache :=
  bigKeys.foldl (fun c k => addToCache c k (some dummyData) 0) []

theorem bigCache_eq :
    bigCache = bigKeys.map (fun k => (k, (0 : Int), some dummyData)) := by
  unfold bigCache
  rw [foldl_addToCache_fresh (some dummyData) 0 bigKeys [] bigKeys_nodup (by simp)]
  simp

theorem bigCache_length : bigCache.length = 513 := by
  rw [bigCache_eq]
  simp [bigKeys]

theorem mkKey_zero_mem : mkKey 0 ∈ bigKeys := by
  unfold bigKeys
  exact List.mem_map.2 ⟨0, by simp, rfl⟩

theorem bigCache_lookup_first :
    cacheLookup bigCache (mkKey 0) = some ((0 : Int), some dummyData) := by
  rw [bigCache_eq]
  exact cacheLookup_map_const bigKeys (mkKey 0) 0 (some dummyData) mkKey_zero_mem

theorem mkKey_ne_b (i : Nat) : mkKey i ≠ "b" := by
  intro h
  have hd := congrArg String.data h
  simp only [mkKey] at hd
  cases i with
  | zero => simp at hd
  | succ n =>
    rw [List.replicate_succ] at hd
    have hh := congrArg (fun l => l.head?) hd
    simp at hh

theorem bigCache_lookup_b : cacheLookup bigCache "b" = none := by
  rw [bigCache_eq]
  apply cacheLookup_eq_none_of_forall
  intro e he
  rcases List.mem_map.1 he with ⟨k, hk, hek⟩
  rcases List.mem_map.1 hk with ⟨i, _, hik⟩
  rw [← hek]
  show k ≠ "b"
  rw [← hik]
  exact mkKey_ne_b i

/-- C5 counterexample: insert 513 distinct entries through `_add_to_cache`.
The table still holds all 513 entries (no clear happened on store), and a
lookup for the first previously-stored key is a hit, not a miss. -/
theorem C5_counterexample :
    bigCache.length = 513 ∧ (checkCache bigCache (mkKey 0) 0).1 = some dummyData := by
  refine ⟨bigCache_length, ?_⟩
  rw [checkCache_fresh bigCache (mkKey 0) 0 0 (some dummyData) bigCache_lookup_first
    (by decide)]

/-- C5 as the code has it: `_add_to_cache` only inserts or overwrites the
entry, stamped with the current time, and never clears the table; the
clear-when-larger-than-512 check runs inside `_check_cache` after a miss or
an expired entry, so a lookup for an absent key clears an oversized table,
while a lookup for a fresh stored key still returns a hit even when the
table holds more than 512 entries. -/
theorem C5_store_and_shed :
    (∀ (c : Cache) (id : UserId) (r : Option YoinkerData) (now : Int),
      cacheLookup (addToCache c id r now) id = some (now, r)) ∧
    (∀ (c : Cache) (id : UserId) (r : Option YoinkerData) (now : Int),
      c.length ≤ (addToCache c id r now).length) ∧
    (∀ (c : Cache) (id : UserId) (now : Int),
      cacheLookup c id = none → 512 < c.length → checkCache c id now = (none, [])) ∧
    (∀ (c : Cache) (id : UserId) (t : Int) (v : Option YoinkerData) (now : Int),
      cacheLookup c id = some (t, v) → now - t < cacheTTL → checkCache c id now = (v, c)) := by
  refine ⟨?_, ?_, ?_, ?_⟩
  · intro c id r now
    exact cacheLookup_cacheInsert_self c id (now, r)
  · intro c id r now
    exact length_cacheInsert_ge c id (now, r)
  · intro c id now hnone h512
    rw [checkCache_of_lookup_none c id now hnone, if_pos (by omega)]
  · intro c id t v now hl hf
    exact checkCache_fresh c id t now v hl hf

/-- Witness for C5's corrected statement, at the 513-entry cache. -/
theorem C5_store_and_shed_witness :
    cacheLookup (addToCache [] "u" none 0) "u" = some ((0 : Int), none) ∧
    ([] : Cache).length ≤ (addToCache [] "u" none 0).length ∧
    checkCache bigCache "b" 0 = (none, []) ∧
    checkCache bigCache (mkKey 0) 0 = (some dummyData, bigCache) :=
  ⟨C5_store_and_shed.1 [] "u" none 0,
   C5_store_and_shed.2.1 [] "u" none 0,
   C5_store_and_shed.2.2.1 bigCache "b" 0 bigCache_lookup_b
     (by rw [bigCache_length]; omega),
   C5_store_and_shed.2.2.2 bigCache (mkKey 0) 0 (some dummyData) 0
     bigCache_lookup_first (by decide)⟩

/-! ### Rate limiter lemmas -/

theorem foldl_request_made (ts : List Int) (rl : RateLimiter)
    (h : rl.requests.length + ts.length ≤ rl.maxRequests + 25) :
    ts.foldl (fun r t => r.request_made t) rl = { rl with requests := rl.requests ++ ts } := by
  induction ts generalizing rl with
  | nil => simp
  | cons t ts ih =>
    rw [List.foldl_cons]
    have hstep : rl.request_made t = { rl with requests := rl.requests ++ [t] } := by
      have hcond : ¬ ((rl.requests ++ [t]).length > rl.maxRequests + 25) := by
        simp only [List.length_append, List.length_cons, List.length_nil]
        simp only [List.length_cons] at h
        omega
      unfold RateLimiter.request_made
      dsimp only
      rw [if_neg hcond]
    rw [hstep, ih { rl with requests := rl.requests ++ [t] }
      (by simp only [List.length_append, List.length_cons, List.length_nil] at h ⊢; omega)]
    simp

/-- C4 as the code has it: `is_rate_limit_exceeded` drops every timestamp
aged 60 seconds or more (`req > now - 60` keeps strictly younger entries)
and returns true exactly when at least 15 timestamps remain.  Hence after 15
`request_made` calls strictly within the trailing 60-second window it
returns true, and it returns false as soon as any of the 15 timestamps —
in particular the oldest — is 60 or more seconds old. -/
theorem C4_window (ts : List Int) (now now1 : Int) (h15 : ts.length = 15) :
    ((∀ t ∈ ts, now - 60 < t) →
      ((ts.foldl (fun r t => r.request_made t) ({} : RateLimiter)).is_rate_limit_exceeded
        now) = true) ∧
    ((∃ t ∈ ts, t ≤ now1 - 60) →
      ((ts.foldl (fun r t => r.request_made t) ({} : RateLimiter)).is_rate_limit_exceeded
        now1) = false) := by
  have hrl : ts.foldl (fun r t => r.request_made t) ({} : RateLimiter)
      = { maxRequests := 15, timeFrameSeconds := 60, requests := ts } := by
    rw [foldl_request_made ts {} (by simp [h15])]
    rfl
  rw [hrl]
  constructor
  · intro hall
    unfold RateLimiter.is_rate_limit_exceeded
    simp only
    rw [List.filter_eq_self.2 (by intro t ht; simpa using hall t ht)]
    simp [h15]
  · intro hex
    unfold RateLimiter.is_rate_limit_exceeded
    simp only
    have hlt : (ts.filter (fun req => decide (req > now1 - 60))).length < ts.length := by
      apply List.length_filter_lt_length_iff_exists.2
      rcases hex with ⟨t, ht, hle⟩
      exact ⟨t, ht, by simpa using hle⟩
    rw [h15] at hlt
    simp only [ge_iff_le, decide_eq_false_iff_not, not_le]
    omega

/-- C4 counterexample: record 15 requests at seconds 0..14.  At `now = 59`
the limiter is exceeded; at `now = 60` the oldest timestamp 0 is exactly 60
seconds old — not more than 60 — yet the limiter already reports not
exceeded, because the filter drops entries aged exactly 60 seconds. -/
theorem C4_counterexample :
    (((List.range 15).map Int.ofNat).foldl (fun r t => r.request_made t)
        ({} : RateLimiter)).is_rate_limit_exceeded 59 = true ∧
    (((List.range 15).map Int.ofNat).foldl (fun r t => r.request_made t)
        ({} : RateLimiter)).is_rate_limit_exceeded 60 = false ∧
    ¬ ((60 : Int) - 0 > 60) := by
  decide

/-- Witness for C4's corrected statement at concrete timestamps 0..14. -/
theorem C4_window_witness :
    (((List.range 15).map Int.ofNat).foldl (fun r t => r.request_made t)
        ({} : RateLimiter)).is_rate_limit_exceeded 30 = true ∧
    (((List.range 15).map Int.ofNat).foldl (fun r t => r.request_made t)
        ({} : RateLimiter)).is_rate_limit_exceeded 75 = false :=
  ⟨(C4_window ((List.range 15).map Int.ofNat) 30 75 (by decide)).1 (by decide),
   (C4_window ((List.range 15).map Int.ofNat) 30 75 (by decide)).2
     ⟨0, by decide, by decide⟩⟩

/-! ### Lookup state machine -/

/-- C2 counterexample: a 200 response with `isYoinker = false` on an empty
state.  The lookup returns `None` and caches it, but the ledger file is left
untouched and no ledger append is recorded, contrary to the claim that the
identifier is appended to the ledger immediately. -/
theorem C2_counterexample :
    (checkUser 1 { ledgerFile := .content [] } "u" none
        [.ok (some ⟨false, "n", "2024", "r"⟩)] 0 0).1 = some none ∧
    (checkUser 1 { ledgerFile := .content [] } "u" none
        [.ok (some ⟨false, "n", "2024", "r"⟩)] 0 0).2.1.ledgerFile = .content [] ∧
    (checkUser 1 { ledgerFile := .content [] } "u" none
        [.ok (some ⟨false, "n", "2024", "r"⟩)] 0 0).2.2 =
      [.rateGate "u", .networkRequest "u" 0, .cacheStore "u" none] := by
  decide

/-- C2 as the code has it: a 200 response whose body decodes with
`isYoinker = false` makes the lookup return `None` (NotFound) and store
`None` in the in-memory cache under the identifier with the current
timestamp; the ledger file is not written on this path (ledger appends
happen only for HTTP 404 and for the not-Found snapshot path). -/
theorem C2_negative_200 (fuel : Nat) (st : DetectorState) (id : UserId)
    (snapshot : Option (Option YoinkerData)) (d : YoinkerData)
    (rest : List Response) (now : Int) (rc : Nat)
    (hsnap : snapshot = none ∨ snapshot = some none)
    (hcache : (checkCache st.cache id now).1 = none)
    (hneg : d.isYoinker = false) :
    checkUser (fuel + 1) st id snapshot (.ok (some d) :: rest) now rc =
      (some none,
       { st with cache := addToCache (checkCache st.cache id now).2 id none now,
                 rateLimiter := st.rateLimiter.request_made now },
       [.rateGate id, .networkRequest id rc, .cacheStore id none]) := by
  rcases hch : checkCache st.cache id now with ⟨res, c1⟩
  rw [hch] at hcache
  simp only at hcache
  subst hcache
  rcases hsnap with hs | hs <;> subst hs <;>
    simp [checkUser, hch, hneg]

/-- Witness for C2's corrected statement on an empty state. -/
theorem C2_negative_200_witness :
    checkUser 1 { ledgerFile := .content ["x"] } "u" none
        [.ok (some ⟨false, "n", "2024", "r"⟩)] 0 0 =
      (some none,
       { cache := addToCache (checkCache [] "u" 0).2 "u" none 0,
         ledgerFile := .content ["x"],
         rateLimiter := RateLimiter.request_made {} 0 },
       [.rateGate "u", .networkRequest "u" 0, .cacheStore "u" none]) :=
  C2_negative_200 0 { ledgerFile := .content ["x"] } "u" none ⟨false, "n", "2024", "r"⟩
    [] 0 0 (Or.inl rfl) (by decide) (by decide)

/-- C7: when the snapshot file exists and decodes, a positive record is
returned as Found with no network attempt and no side effect; a non-positive
record yields NotFound with no network attempt, appending the identifier to
the ledger exactly when it is not already present there. -/
theorem C7_snapshot (fuel : Nat) (st : DetectorState) (id : UserId) (d : YoinkerData)
    (responses : List Response) (now : Int) (rc : Nat) :
    (d.isYoinker = true →
      checkUser (fuel + 1) st id (some (some d)) responses now rc = (some (some d), st, [])) ∧
    (d.isYoinker = false → id ∈ load404 st.ledgerFile →
      checkUser (fuel + 1) st id (some (some d)) responses now rc = (some none, st, [])) ∧
    (d.isYoinker = false → id ∉ load404 st.ledgerFile →
      checkUser (fuel + 1) st id (some (some d)) responses now rc =
        (some none, { st with ledgerFile := saveTo404 st.ledgerFile id },
          [.ledgerAppend id])) := by
  refine ⟨?_, ?_, ?_⟩
  · intro hy
    simp [checkUser, hy]
  · intro hy hmem
    simp [checkUser, hy, hmem]
  · intro hy hmem
    simp [checkUser, hy, hmem]

/-- Witness for C7: a decoded positive snapshot, a negative snapshot with
the id already ledgered, and a negative snapshot with the id unledgered. -/
theorem C7_snapshot_witness :
    checkUser 1 {} "v" (some (some ⟨true, "n", "2024", "r"⟩)) [] 0 0 =
      (some (some ⟨true, "n", "2024", "r"⟩), {}, []) ∧
    checkUser 1 { ledgerFile := .content ["u"] } "u" (some (some ⟨false, "n", "2024", "r"⟩))
        [] 0 0 = (some none, { ledgerFile := .content ["u"] }, []) ∧
    checkUser 1 { ledgerFile := .content [] } "u" (some (some ⟨false, "n", "2024", "r"⟩))
        [] 0 0 =
      (some none, { ledgerFile := saveTo404 (.content []) "u" }, [.ledgerAppend "u"]) :=
  ⟨(C7_snapshot 0 {} "v" ⟨true, "n", "2024", "r"⟩ [] 0 0).1 rfl,
   (C7_snapshot 0 { ledgerFile := .content ["u"] } "u" ⟨false, "n", "2024", "r"⟩
      [] 0 0).2.1 rfl (by decide),
   (C7_snapshot 0 { ledgerFile := .content [] } "u" ⟨false, "n", "2024", "r"⟩
      [] 0 0).2.2 rfl (by decide)⟩

/-- C9: a fresh in-memory cache entry whose stored value is `None` does not
short-circuit the lookup — `_check_cache` reports it as `None`, the
`is not None` test fails, and the lookup proceeds to the rate gate and a
fresh network attempt. -/
theorem C9_cached_negative (fuel : Nat) (st : DetectorState) (id : UserId)
    (snapshot : Option (Option YoinkerData)) (responses : List Response)
    (now t : Int) (rc : Nat)
    (hsnap : snapshot = none ∨ snapshot = some none)
    (hcache : cacheLookup st.cache id = some (t, none))
    (hfresh : now - t < cacheTTL)
    (hresp : responses ≠ []) :
    (checkCache st.cache id now).1 = none ∧
    ((checkUser (fuel + 1) st id snapshot responses now rc).2.2).take 2 =
      [.rateGate id, .networkRequest id rc] := by
  have hcc : checkCache st.cache id now = (none, st.cache) :=
    checkCache_fresh st.cache id t now none hcache hfresh
  refine ⟨by rw [hcc], ?_⟩
  rcases responses with _ | ⟨resp, rest⟩
  · exact absurd rfl hresp
  · rcases hsnap with hs | hs <;> subst hs <;>
    cases resp with
    | ok decoded =>
        rcases decoded with _ | data
        · simp [checkUser, hcc]
        · by_cases hy : data.isYoinker <;> simp [checkUser, hcc, hy]
    | notFound => simp [checkUser, hcc]
    | throttled => simp [checkUser, hcc]
    | otherStatus code => simp [checkUser, hcc]
    | timeout => by_cases h3 : rc < 3 <;> simp [checkUser, hcc, h3]
    | clientError => by_cases h3 : rc < 3 <;> simp [checkUser, hcc, h3]

/-- Witness for C9: an identifier cached as `(0, None)` still triggers a
network attempt. -/
theorem C9_cached_negative_witness :
    (checkCache [("u", (0 : Int), none)] "u" 0).1 = none ∧
    ((checkUser 1 { cache := [("u", (0 : Int), none)] } "u" none [.notFound] 0 0).2.2).take 2 =
      [.rateGate "u", .networkRequest "u" 0] :=
  C9_cached_negative 0 { cache := [("u", (0 : Int), none)] } "u" none [.notFound] 0 0 0
    (Or.inl rfl) (by decide) (by decide) (by decide)

@[simp] theorem numRequests_nil : numRequests [] = 0 := rfl

@[simp] theorem numRequests_cons_gate (id : UserId) (evs : List Event) :
    numRequests (Event.rateGate id :: evs) = numRequests evs := by
  simp [numRequests, List.filter, isNetworkRequest]

@[simp] theorem numRequests_cons_req (id : UserId) (rc : Nat) (evs : List Event) :
    numRequests (Event.networkRequest id rc :: evs) = numRequests evs + 1 := by
  simp [numRequests, List.filter, isNetworkRequest]

@[simp] theorem numRequests_cons_sleep (s : Nat) (evs : List Event) :
    numRequests (Event.sleep s :: evs) = numRequests evs := by
  simp [numRequests, List.filter, isNetworkRequest]

@[simp] theorem numRequests_cons_store (id : UserId) (v : Option YoinkerData)
    (evs : List Event) :
    numRequests (Event.cacheStore id v :: evs) = numRequests evs := by
  simp [numRequests, List.filter, isNetworkRequest]

@[simp] theorem numRequests_cons_ledger (id : UserId) (evs : List Event) :
    numRequests (Event.ledgerAppend id :: evs) = numRequests evs := by
  simp [numRequests, List.filter, isNetworkRequest]

/-- C3 counterexample: five successive HTTP 500 responses produce five
network attempts — more than the claimed ceiling of four — all issued with
retry counter 0 (the status branch never consumes the retry budget), and a
200 response with a malformed body returns `None` at once, after a single
attempt and with no retry or sleep. -/
theorem C3_counterexample :
    numRequests (checkUser 10 {} "u" none
      (List.replicate 5 (.otherStatus 500)) 0 0).2.2 = 5 ∧
    (checkUser 10 {} "u" none (List.replicate 5 (.otherStatus 500)) 0 0).2.2.filter
        isNetworkRequest = List.replicate 5 (.networkRequest "u" 0) ∧
    (checkUser 10 {} "u" none [.ok none] 0 0).1 = some none ∧
    (checkUser 10 {} "u" none [.ok none] 0 0).2.2 =
      [.rateGate "u", .networkRequest "u" 0] := by
  decide

/-- C3 as the code has it: only transport timeouts and connection errors
consume the bounded retry budget (1 initial attempt + 3 retries, each after
a 1-second sleep).  Along any run whose attempts all end in timeout or
connection error, starting at retry counter `rc ≤ 3`, at most `4 - rc`
network attempts occur, and once enough responses and fuel are available
the call returns Python `None` (Unresolved).  Statuses outside
{200, 404, 429} retry without consuming the budget, and a malformed 200
body returns `None` immediately (see the counterexample). -/
theorem C3_transport_budget (responses : List Response) (fuel : Nat)
    (st : DetectorState) (id : UserId) (snapshot : Option (Option YoinkerData))
    (now : Int) (rc : Nat)
    (hall : ∀ r ∈ responses, r = Response.timeout ∨ r = Response.clientError)
    (hsnap : snapshot = none ∨ snapshot = some none)
    (hcache : cacheLookup st.cache id = none)
    (hrc : rc ≤ 3) :
    numRequests (checkUser fuel st id snapshot responses now rc).2.2 ≤ 4 - rc ∧
    (4 - rc ≤ responses.length → 4 - rc ≤ fuel →
      (checkUser fuel st id snapshot responses now rc).1 = some none) := by
  induction responses generalizing st fuel rc with
  | nil =>
    cases fuel with
    | zero =>
      exact ⟨by simp [checkUser], fun h1 h2 => absurd h2 (by omega)⟩
    | succ fuel =>
      have hcc := checkCache_of_lookup_none st.cache id now hcache
      rcases hsnap with hs | hs <;> subst hs <;>
        exact ⟨by simp [checkUser, hcc], fun h1 _ => absurd h1 (by simp at h1 ⊢; omega)⟩
  | cons r rest ih =>
    cases fuel with
    | zero =>
      exact ⟨by simp [checkUser], fun h1 h2 => absurd h2 (by omega)⟩
    | succ fuel =>
      have h1 : (checkCache st.cache id now).1 = none := by
        rw [checkCache_of_lookup_none st.cache id now hcache]
      have h2 : cacheLookup (checkCache st.cache id now).2 id = none :=
        cacheLookup_checkCache_none st.cache id now hcache
      rcases hch : checkCache st.cache id now with ⟨res, c1⟩
      rw [hch] at h1 h2
      simp only at h1 h2
      subst h1
      have hallrest : ∀ x ∈ rest, x = Response.timeout ∨ x = Response.clientError :=
        fun x hx => hall x (by simp [hx])
      rcases hall r (by simp) with hr | hr <;> subst hr <;>
        rcases hsnap with hs | hs <;> subst hs <;>
        by_cases h3 : rc < 3
      all_goals
        first
        | (refine ⟨?_, fun ha hb => ?_⟩
           · have hIH := (ih fuel { st with cache := c1 } (rc + 1) hallrest h2 (by omega)).1
             simp [checkUser, hch, h3]
             omega
           · have hres := (ih fuel { st with cache := c1 } (rc + 1) hallrest h2 (by omega)).2
               (by simp at ha; omega) (by omega)
             simp [checkUser, hch, h3, hres])
        | (refine ⟨?_, fun ha hb => ?_⟩
           · simp [checkUser, hch, h3]
             omega
           · simp [checkUser, hch, h3])

/-- Witness for C3's corrected statement: four straight timeouts exhaust the
budget with exactly four attempts and a `None` result. -/
theorem C3_transport_budget_witness :
    numRequests (checkUser 4 {} "u" none (List.replicate 4 .timeout) 0 0).2.2 ≤ 4 ∧
    (checkUser 4 {} "u" none (List.replicate 4 .timeout) 0 0).1 = some none :=
  ⟨(C3_transport_budget (List.replicate 4 .timeout) 4 {} "u" none 0 0
      (by decide) (Or.inl rfl) (by decide) (by decide)).1,
   (C3_transport_budget (List.replicate 4 .timeout) 4 {} "u" none 0 0
      (by decide) (Or.inl rfl) (by decide) (by decide)).2 (by decide) (by decide)⟩

/-! ### Batching lemmas -/

theorem chunkList_flatten {α : Type} (n : Nat) (l : List α) (h : 0 < n) :
    (chunkList n l).flatten = l := by
  induction n, l using chunkList.induct with
  | case1 n => simp [chunkList]
  | case2 x xs => omega
  | case3 n x xs ih =>
    rw [chunkList]
    simp only [List.flatten_cons]
    rw [ih (by omega)]
    exact List.take_append_drop _ _

theorem chunkList_ne_nil {α : Type} (n : Nat) (l : List α) :
    ∀ b ∈ chunkList n l, b ≠ [] := by
  induction n, l using chunkList.induct with
  | case1 n => simp [chunkList]
  | case2 x xs => simp [chunkList]
  | case3 n x xs ih =>
    rw [chunkList]
    intro b hb
    rcases List.mem_cons.1 hb with h1 | h1
    · subst h1
      simp
    · exact ih b h1

theorem chunkList_length_le {α : Type} (n : Nat) (l : List α) :
    ∀ b ∈ chunkList n l, b.length ≤ n := by
  induction n, l using chunkList.induct with
  | case1 n => simp [chunkList]
  | case2 x xs => simp [chunkList]
  | case3 n x xs ih =>
    rw [chunkList]
    intro b hb
    rcases List.mem_cons.1 hb with h1 | h1
    · subst h1
      exact List.length_take_le _ _
    · exact ih b h1

theorem chunkList_subset {α : Type} (n : Nat) (l : List α) :
    ∀ b ∈ chunkList n l, ∀ y ∈ b, y ∈ l := by
  induction n, l using chunkList.induct with
  | case1 n => simp [chunkList]
  | case2 x xs => simp [chunkList]
  | case3 n x xs ih =>
    rw [chunkList]
    intro b hb y hy
    rcases List.mem_cons.1 hb with h1 | h1
    · subst h1
      exact List.take_subset _ _ hy
    · exact List.drop_subset _ _ (ih b h1 y hy)

theorem chunkList_dropLast_full {α : Type} (n : Nat) (l : List α) :
    ∀ b ∈ (chunkList n l).dropLast, b.length = n := by
  induction n, l using chunkList.induct with
  | case1 n => simp [chunkList]
  | case2 x xs => simp [chunkList]
  | case3 n x xs ih =>
    rw [chunkList]
    rcases hC : chunkList (n + 1) (List.drop (n + 1) (x :: xs)) with _ | ⟨c, cs⟩
    · simp
    · intro b hb
      rw [List.dropLast_cons_of_ne_nil (by simp)] at hb
      rcases List.mem_cons.1 hb with h1 | h1
      · subst h1
        have hdrop : List.drop (n + 1) (x :: xs) ≠ [] := by
          intro h0
          rw [h0] at hC
          simp [chunkList] at hC
        have hlen : n + 1 < (x :: xs).length := by
          rcases Nat.lt_or_ge ((x :: xs).length) (n + 2) with hlt | hge
          · exact absurd (List.drop_eq_nil_iff.2 (by omega)) hdrop
          · omega
        simp only [List.length_cons] at hlen
        simp [List.length_take]
        omega
      · exact ih b (hC ▸ h1)

/-! ### Trace lemmas -/

theorem orchestratorTrace_index_ge (bs : List (List UserId)) :
    ∀ (i : Nat), ∀ e ∈ orchestratorTrace i bs, i ≤ e.batchIndex := by
  induction bs with
  | nil => intro i e he; simp [orchestratorTrace] at he
  | cons b bs ih =>
    intro i e he
    rw [orchestratorTrace] at he
    rcases List.mem_append.1 he with h1 | h1
    · rcases List.mem_append.1 h1 with h2 | h2 <;>
      · rcases List.mem_map.1 h2 with ⟨y, _, hy⟩
        rw [← hy]
        exact Nat.le_refl i
    · exact Nat.le_trans (by omega) (ih (i + 1) e h1)

theorem pairwise_le_of_forall_eq (l : List BatchEvent) (i : Nat)
    (h : ∀ e ∈ l, e.batchIndex = i) :
    l.Pairwise (fun a b => a.batchIndex ≤ b.batchIndex) := by
  induction l with
  | nil => simp
  | cons a as ih =>
    rw [List.pairwise_cons]
    refine ⟨?_, ih (fun e he => h e (by simp [he]))⟩
    intro a1 ha1
    rw [h a (by simp), h a1 (by simp [ha1])]

theorem batchIndex_map_launch (b : List UserId) (i : Nat) :
    ∀ e ∈ b.map (fun id => BatchEvent.launch i id), e.batchIndex = i := by
  intro e he
  rcases List.mem_map.1 he with ⟨y, _, hy⟩
  rw [← hy]
  rfl

theorem batchIndex_map_await (b : List UserId) (i : Nat) :
    ∀ e ∈ b.map (fun id => BatchEvent.awaitTask i id), e.batchIndex = i := by
  intro e he
  rcases List.mem_map.1 he with ⟨y, _, hy⟩
  rw [← hy]
  rfl

theorem orchestratorTrace_pairwise (bs : List (List UserId)) :
    ∀ (i : Nat), (orchestratorTrace i bs).Pairwise
      (fun a b => a.batchIndex ≤ b.batchIndex) := by
  induction bs with
  | nil => intro i; simp [orchestratorTrace]
  | cons b bs ih =>
    intro i
    rw [orchestratorTrace]
    apply List.pairwise_append.2
    refine ⟨?_, ih (i + 1), ?_⟩
    · apply List.pairwise_append.2
      refine ⟨pairwise_le_of_forall_eq _ i (batchIndex_map_launch b i),
              pairwise_le_of_forall_eq _ i (batchIndex_map_await b i), ?_⟩
      intro a ha e he
      rw [batchIndex_map_launch b i a ha, batchIndex_map_await b i e he]
    · intro a ha e he
      have hai : a.batchIndex = i := by
        rcases List.mem_append.1 ha with h1 | h1
        · exact batchIndex_map_launch b i a h1
        · exact batchIndex_map_await b i a h1
      rw [hai]
      exact Nat.le_trans (by omega) (orchestratorTrace_index_ge bs (i + 1) e he)

theorem orchestratorTrace_user_mem (bs : List (List UserId)) :
    ∀ (i : Nat), ∀ e ∈ orchestratorTrace i bs, ∃ b ∈ bs, e.user ∈ b := by
  induction bs with
  | nil =>
    intro i e he
    simp [orchestratorTrace] at he
  | cons b bs ih =>
    intro i e he
    rw [orchestratorTrace] at he
    rcases List.mem_append.1 he with h1 | h1
    · rcases List.mem_append.1 h1 with h2 | h2 <;>
      · rcases List.mem_map.1 h2 with ⟨y, hy, hye⟩
        refine ⟨b, by simp, ?_⟩
        rw [← hye]
        exact hy
    · rcases ih (i + 1) e h1 with ⟨b1, hb1, hu⟩
      exact ⟨b1, by simp [hb1], hu⟩

/-- C8: for a positive concurrency limit, the post-filter identifiers are
partitioned into consecutive batches of size `2 × limit` — concatenating
the batches in order gives back the filtered list, every batch is non-empty
and at most `2 × limit` long, every batch except possibly the last is
exactly `2 × limit` long — and the orchestrator trace launches and awaits
all of batch N before anything of batch N+1 (batch indices are
non-decreasing along the trace). -/
theorem C8_batching (lines : List String) (fs : FileState (List String)) (c : Nat)
    (hc : 0 < c) :
    ((processUserIds lines fs c).2).flatten = (processUserIds lines fs c).1 ∧
    (∀ b ∈ (processUserIds lines fs c).2, b ≠ [] ∧ b.length ≤ c * 2) ∧
    (∀ b ∈ ((processUserIds lines fs c).2).dropLast, b.length = c * 2) ∧
    (orchestratorTrace 0 (processUserIds lines fs c).2).Pairwise
      (fun a b => a.batchIndex ≤ b.batchIndex) := by
  refine ⟨chunkList_flatten _ _ (by omega), ?_,
    chunkList_dropLast_full _ _, orchestratorTrace_pairwise _ 0⟩
  intro b hb
  exact ⟨chunkList_ne_nil _ _ b hb, chunkList_length_le _ _ b hb⟩

/-- Witness for C8 on a concrete three-identifier input with limit 1. -/
theorem C8_batching_witness :
    ((processUserIds ["a", "b", "c"] .absent 1).2).flatten =
      (processUserIds ["a", "b", "c"] .absent 1).1 ∧
    (∀ b ∈ (processUserIds ["a", "b", "c"] .absent 1).2, b ≠ [] ∧ b.length ≤ 1 * 2) ∧
    (∀ b ∈ ((processUserIds ["a", "b", "c"] .absent 1).2).dropLast, b.length = 1 * 2) ∧
    (orchestratorTrace 0 (processUserIds ["a", "b", "c"] .absent 1).2).Pairwise
      (fun a b => a.batchIndex ≤ b.batchIndex) :=
  C8_batching ["a", "b", "c"] .absent 1 (by decide)

/-- C1: an identifier present in the ledger loaded at start is removed
before batching — it is not in the filtered list, not in any batch, and no
orchestrator event (task creation or await) mentions it, so no lookup task
is ever created for it and it triggers no network request. -/
theorem C1_ledger_skip (lines : List String) (fs : FileState (List String)) (c : Nat)
    (id : UserId) (h : id ∈ load404 fs) :
    id ∉ (processUserIds lines fs c).1 ∧
    (∀ b ∈ (processUserIds lines fs c).2, id ∉ b) ∧
    (∀ e ∈ orchestratorTrace 0 (processUserIds lines fs c).2, e.user ≠ id) := by
  have h1 : id ∉ (processUserIds lines fs c).1 := by
    intro hmem
    have h2 := (List.mem_filter.1 hmem).2
    simp at h2
    exact h2 h
  refine ⟨h1, ?_, ?_⟩
  · intro b hb hid
    exact h1 (chunkList_subset _ _ b hb id hid)
  · intro e he heq
    rcases orchestratorTrace_user_mem _ 0 e he with ⟨b, hb, hu⟩
    exact h1 (chunkList_subset _ _ b hb id (heq ▸ hu))

/-- Witness for C1: with `404.txt` containing `y`, the input `[x, y]` keeps
only `x`. -/
theorem C1_ledger_skip_witness :
    "y" ∉ (processUserIds ["x", "y"] (.content ["y"]) 1).1 ∧
    (∀ b ∈ (processUserIds ["x", "y"] (.content ["y"]) 1).2, "y" ∉ b) ∧
    (∀ e ∈ orchestratorTrace 0 (processUserIds ["x", "y"] (.content ["y"]) 1).2,
      e.user ≠ "y") :=
  C1_ledger_skip ["x", "y"] (.content ["y"]) 1 "y" (by decide)

/-- C10: a missing or unreadable `404.txt` loads as the empty set, and the
run then filters out nothing — every parsed input identifier stays eligible
for lookup. -/
theorem C10_missing_ledger (lines : List String) (c : Nat) :
    load404 .absent = [] ∧ load404 .unreadable = [] ∧
    (processUserIds lines .absent c).1 = (lines.map pyStrip).filter (fun s => s ≠ "") ∧
    (processUserIds lines .unreadable c).1 =
      (lines.map pyStrip).filter (fun s => s ≠ "") := by
  refine ⟨rfl, rfl, ?_, ?_⟩ <;>
  · exact List.filter_eq_self.2 (by intro a ha; simp [load404])

end YD
